import Mathlib

/-!
Shallow embedding of the pricing simulator backend
(src/backend/pricing_simulator.py).

Python floats are modelled by the rationals.  np.log has no rational
counterpart, so the elasticity estimator takes the logarithm map as an
explicit function parameter; every statement proved below is independent
of which map is supplied.  Python dicts are modelled by association lists
in insertion order, pandas data frames by lists of records in row order,
and a method that may raise is modelled as a function into Except that
also returns the post-call state (the Python methods mutate self).
-/

/-- Catalog row of product reference data (load_product_data, line 13):
product_id, product_name, category, base_cost, current_price. -/
structure Product where
  product_id : String
  product_name : String
  category : String
  base_cost : ℚ
  current_price : ℚ
deriving DecidableEq

/-- Row of historical transaction data (load_historical_data, line 23).
The parsed date plays no role in any computation and is kept a string. -/
structure Obs where
  date : String
  product_id : String
  price : ℚ
  volume : ℚ
deriving DecidableEq

/-- Per-product output record of calculate_elasticity (lines 53-57 and
69-73). -/
structure ElasticityResult where
  elasticity : ℚ
  r_squared : ℚ
  is_modeled : Bool
deriving DecidableEq

/-- Fitted LinearRegression cached in self.models (line 74): slope
coefficient and intercept of the one-regressor least-squares fit. -/
structure FitModel where
  coef : ℚ
  intercept : ℚ
deriving DecidableEq

/-- State held by the PricingSimulator object (lines 7-11).  product_data
and historical_data start as None; elasticities and models start as empty
dicts. -/
structure PricingSimulator where
  product_data : Option (List Product)
  historical_data : Option (List Obs)
  elasticities : List (String × ElasticityResult)
  models : List (String × FitModel)
deriving DecidableEq

/-- Freshly constructed simulator (lines 7-11). -/
def PricingSimulator.init : PricingSimulator := ⟨none, none, [], []⟩

/-- Exceptions the embedded methods can raise.  valueError models the
explicit raise ValueError calls (the precondition or state errors of the
spec); attributeError models Python evaluating attribute access on None,
as optimize_pricing does at line 153 when product_data is None. -/
inductive Err where
  | valueError : String → Err
  | attributeError : String → Err
deriving DecidableEq

deriving instance DecidableEq for Except

/-- Order-preserving key extraction in order of first occurrence, as
pandas Series.unique returns it (line 45). -/
def uniqueFirst (l : List String) : List String :=
  l.foldl (fun acc x => if x ∈ acc then acc else acc ++ [x]) []

/-- Python dict assignment d[k] = v: replace the value when the key is
present, append otherwise. -/
def dictInsert (l : List (String × α)) (k : String) (v : α) : List (String × α) :=
  if (l.lookup k).isSome then l.map (fun kv => if kv.1 = k then (k, v) else kv)
  else l ++ [(k, v)]

/-- Elasticity lookup self.elasticities.get(product_id, dict()).get(key,
-1.0) used at lines 94 and 167. -/
def getElasticity (elas : List (String × ElasticityResult)) (pid : String) : ℚ :=
  match elas.lookup pid with
  | some r => r.elasticity
  | none => -1

/-- Base volume computation that appears verbatim in simulate_scenario
(lines 106-110) and in optimize_pricing (lines 161-165): mean of all
historical volume observations of the product when any exist, the
fallback 1000 when the product has no rows or no table is loaded.  No
validity filtering is applied here. -/
def baseVolume (s : PricingSimulator) (pid : String) : ℚ :=
  match s.historical_data with
  | none => 1000
  | some hist =>
    let hist_prod := hist.filter (fun o => o.product_id == pid)
    if hist_prod.isEmpty then 1000
    else (hist_prod.map (fun o => o.volume)).sum / (hist_prod.length : ℚ)

/-- Sum of the first coordinates of a point list. -/
def sumX (pts : List (ℚ × ℚ)) : ℚ := (pts.map Prod.fst).sum

/-- Sum of the second coordinates of a point list. -/
def sumY (pts : List (ℚ × ℚ)) : ℚ := (pts.map Prod.snd).sum

/-- Sum of the coordinate products of a point list. -/
def sumXY (pts : List (ℚ × ℚ)) : ℚ := (pts.map (fun p => p.1 * p.2)).sum

/-- Sum of the squared first coordinates of a point list. -/
def sumX2 (pts : List (ℚ × ℚ)) : ℚ := (pts.map (fun p => p.1 * p.1)).sum

/-- Sum of the squared second coordinates of a point list. -/
def sumY2 (pts : List (ℚ × ℚ)) : ℚ := (pts.map (fun p => p.2 * p.2)).sum

/-- Slope fitted by LinearRegression().fit on a single regressor
(lines 63-66): the least-squares solution of the normal equations in
closed form. -/
def fitSlope (pts : List (ℚ × ℚ)) : ℚ :=
  ((pts.length : ℚ) * sumXY pts - sumX pts * sumY pts) /
    ((pts.length : ℚ) * sumX2 pts - sumX pts * sumX pts)

/-- Intercept of the same least-squares fit. -/
def fitIntercept (pts : List (ℚ × ℚ)) : ℚ :=
  (sumY pts - fitSlope pts * sumX pts) / (pts.length : ℚ)

/-- Mean of the first coordinates. -/
def meanX (pts : List (ℚ × ℚ)) : ℚ := sumX pts / (pts.length : ℚ)

/-- Mean of the second coordinates. -/
def meanY (pts : List (ℚ × ℚ)) : ℚ := sumY pts / (pts.length : ℚ)

/-- Residual sum of squares of the fitted line. -/
def ssRes (pts : List (ℚ × ℚ)) : ℚ :=
  (pts.map (fun p => (p.2 - (fitIntercept pts + fitSlope pts * p.1)) ^ 2)).sum

/-- Total sum of squares around the mean response. -/
def ssTot (pts : List (ℚ × ℚ)) : ℚ :=
  (pts.map (fun p => (p.2 - meanY pts) ^ 2)).sum

/-- Coefficient of determination returned by model.score (line 67). -/
def rSquared (pts : List (ℚ × ℚ)) : ℚ := 1 - ssRes pts / ssTot pts

/-- Sample covariance of the two coordinates, written exactly as the
claimed closed form cov(ln price, ln volume) reads. -/
def covXY (pts : List (ℚ × ℚ)) : ℚ :=
  (pts.map (fun p => (p.1 - meanX pts) * (p.2 - meanY pts))).sum / (pts.length : ℚ)

/-- Sample variance of the first coordinate, written exactly as the
claimed closed form var(ln price) reads. -/
def varX (pts : List (ℚ × ℚ)) : ℚ :=
  (pts.map (fun p => (p.1 - meanX pts) * (p.1 - meanX pts))).sum / (pts.length : ℚ)

/-- Rows of the product after the validity filter of line 49:
price > 0 and volume > 0. -/
def validRows (hist : List Obs) (pid : String) : List Obs :=
  (hist.filter (fun o => o.product_id == pid)).filter
    (fun o => decide (0 < o.price) && decide (0 < o.volume))

/-- Log-log design points of lines 60-61, with np.log abstracted as the
supplied map. -/
def logPoints (log : ℚ → ℚ) (hist : List Obs) (pid : String) : List (ℚ × ℚ) :=
  (validRows hist pid).map (fun o => (log o.price, log o.volume))

/-- Per-product result of calculate_elasticity (lines 46-73). -/
def productResult (log : ℚ → ℚ) (hist : List Obs) (pid : String) : ElasticityResult :=
  if (validRows hist pid).length < 5 then ⟨-1, 0, false⟩
  else ⟨fitSlope (logPoints log hist pid), rSquared (logPoints log hist pid), true⟩

/-- calculate_elasticity (lines 35-77): raises when no historical data is
loaded, otherwise builds one result per product id in first-occurrence
order, caches a fitted model for each modeled product, replaces
self.elasticities wholesale and returns the results. -/
def calculate_elasticity (log : ℚ → ℚ) (s : PricingSimulator) :
    Except Err (List (String × ElasticityResult) × PricingSimulator) :=
  match s.historical_data with
  | none => Except.error (Err.valueError "Historical data not loaded")
  | some hist =>
    let pids := uniqueFirst (hist.map (fun o => o.product_id))
    let results := pids.map (fun pid => (pid, productResult log hist pid))
    let models := pids.foldl (fun m pid =>
      if (validRows hist pid).length < 5 then m
      else dictInsert m pid
        ⟨fitSlope (logPoints log hist pid), fitIntercept (logPoints log hist pid)⟩) s.models
    Except.ok (results, { s with elasticities := results, models := models })

/-- Output record of simulate_scenario for one catalog row
(lines 89-139). -/
structure SimRecord where
  product_id : String
  product_name : String
  category : String
  old_price : ℚ
  new_price : ℚ
  price_change_pct : ℚ
  elasticity : ℚ
  old_volume : ℚ
  new_volume : ℚ
  volume_change_pct : ℚ
  old_revenue : ℚ
  new_revenue : ℚ
  revenue_change_pct : ℚ
  old_profit : ℚ
  new_profit : ℚ
  profit_change_pct : ℚ
deriving DecidableEq

/-- Body of the simulate_scenario loop for one catalog row
(lines 89-139).  The conditional expressions at lines 135 and 138
translate the Python truthiness guard: a percentage delta is 0 when the
old value is exactly 0, the quotient otherwise. -/
def simRecordOf (s : PricingSimulator) (price_changes : List (String × ℚ))
    (row : Product) : SimRecord :=
  let current_price := row.current_price
  let base_cost := row.base_cost
  let elasticity := getElasticity s.elasticities row.product_id
  let pct_change := (price_changes.lookup row.product_id).getD 0
  let new_price := current_price * (1 + pct_change)
  let base_volume := baseVolume s row.product_id
  let volume_change_pct := elasticity * pct_change
  let new_volume := base_volume * (1 + volume_change_pct)
  let old_revenue := current_price * base_volume
  let new_revenue := new_price * new_volume
  let old_profit := (current_price - base_cost) * base_volume
  let new_profit := (new_price - base_cost) * new_volume
  { product_id := row.product_id
    product_name := row.product_name
    category := row.category
    old_price := current_price
    new_price := new_price
    price_change_pct := pct_change
    elasticity := elasticity
    old_volume := base_volume
    new_volume := new_volume
    volume_change_pct := volume_change_pct
    old_revenue := old_revenue
    new_revenue := new_revenue
    revenue_change_pct := if old_revenue = 0 then 0 else (new_revenue - old_revenue) / old_revenue
    old_profit := old_profit
    new_profit := new_profit
    profit_change_pct := if old_profit = 0 then 0 else (new_profit - old_profit) / old_profit }

/-- simulate_scenario (lines 79-141): raises ValueError when no catalog
is loaded, otherwise produces one record per catalog row in row order and
leaves the state untouched. -/
def simulate_scenario (s : PricingSimulator) (price_changes : List (String × ℚ)) :
    Except Err (List SimRecord × PricingSimulator) :=
  match s.product_data with
  | none => Except.error (Err.valueError "Product data not loaded")
  | some products => Except.ok (products.map (simRecordOf s price_changes), s)

/-- Candidate grid np.linspace(-max_change, max_change, 5) of line 151:
five points, start plus i times the step (stop - start) / 4. -/
def test_points (max_change : ℚ) : List ℚ :=
  (List.range 5).map (fun i : ℕ => -max_change + (i : ℚ) * (max_change - -max_change) / 4)

/-- Margin of a candidate change (lines 170-173):
(new_price - base_cost) / new_price at new_price =
current_price * (1 + change). -/
def marginAt (current_price base_cost change : ℚ) : ℚ :=
  (current_price * (1 + change) - base_cost) / (current_price * (1 + change))

/-- Objective dispatch of lines 184-190: the target starts at 0 and is
replaced only when the objective string is one of the three known ones. -/
def targetOf (objective : String) (profit revenue volume : ℚ) : ℚ :=
  if objective = "profit" then profit
  else if objective = "revenue" then revenue
  else if objective = "volume" then volume
  else 0

/-- Target value of a candidate change (lines 170-190): projected profit,
revenue or volume under the first-order elasticity model. -/
def targetAt (objective : String) (current_price base_cost base_volume elasticity change : ℚ) : ℚ :=
  let new_price := current_price * (1 + change)
  let new_vol := base_volume * (1 + elasticity * change)
  targetOf objective ((new_price - base_cost) * new_vol) (new_price * new_vol) new_vol

/-- One iteration of the candidate loop of lines 169-194.  The
accumulator models (best_val, best_change); best_val = none stands for
the initial -inf, which every finite target strictly exceeds.  A
candidate below the margin floor is skipped; otherwise it replaces the
incumbent exactly when its target is strictly greater. -/
def candidateStep (objective : String)
    (min_margin current_price base_cost base_volume elasticity : ℚ)
    (acc : Option ℚ × ℚ) (change : ℚ) : Option ℚ × ℚ :=
  if marginAt current_price base_cost change < min_margin then acc
  else
    let target := targetAt objective current_price base_cost base_volume elasticity change
    match acc.1 with
    | none => (some target, change)
    | some best_val => if best_val < target then (some target, change) else acc

/-- Recommended change for one catalog row: the candidate loop of
lines 154-194 folded over the grid, starting from
(best_val, best_change) = (-inf, 0.0), returning best_change. -/
def bestChange (objective : String)
    (min_margin max_change current_price base_cost base_volume elasticity : ℚ) : ℚ :=
  ((test_points max_change).foldl
    (candidateStep objective min_margin current_price base_cost base_volume elasticity)
    (none, 0)).2

/-- optimize_pricing (lines 143-198).  The method performs no None check
on product_data: when no catalog is loaded, iterrows() is evaluated on
None and Python raises AttributeError, not the ValueError state error the
other methods raise.  Otherwise it returns one recommendation per catalog
row and leaves the state untouched. -/
def optimize_pricing (s : PricingSimulator) (objective : String)
    (min_margin max_change : ℚ) :
    Except Err (List (String × ℚ) × PricingSimulator) :=
  match s.product_data with
  | none => Except.error (Err.attributeError "NoneType object has no attribute iterrows")
  | some products =>
    Except.ok (products.map (fun row =>
      (row.product_id,
        bestChange objective min_margin max_change row.current_price row.base_cost
          (baseVolume s row.product_id) (getElasticity s.elasticities row.product_id))), s)

/-- Abstract form of one iteration of the optimizer's candidate loop:
surv is the margin test and f the objective target.  candidateStep is the
instance proved by candidateStep_eq_stepG. -/
def stepG (surv : ℚ → Bool) (f : ℚ → ℚ) (acc : Option ℚ × ℚ) (c : ℚ) : Option ℚ × ℚ :=
  if surv c then
    match acc.1 with
    | none => (some (f c), c)
    | some best_val => if best_val < f c then (some (f c), c) else acc
  else acc

/-- Concrete catalog used to evaluate the theorems on explicit inputs.
P1 has five valid observations in wHist; P2 has one valid and one invalid
observation. -/
def wProducts : List Product :=
  [⟨"P1", "Premium Coffee Beans", "Coffee", 10, 18⟩,
   ⟨"P2", "Coffee Filters", "Accessories", 5, 5⟩]

/-- Concrete observation table used to evaluate the theorems. -/
def wHist : List Obs :=
  [⟨"d1", "P1", 1, 2⟩, ⟨"d2", "P1", 2, 4⟩, ⟨"d3", "P1", 3, 6⟩,
   ⟨"d4", "P1", 4, 8⟩, ⟨"d5", "P1", 5, 10⟩,
   ⟨"d6", "P2", 1, 3⟩, ⟨"d7", "P2", 0, 7⟩]

/-- Concrete loaded simulator state used to evaluate the theorems. -/
def wState : PricingSimulator := ⟨some wProducts, some wHist, [], []⟩

/-- Membership in the first-occurrence key list is membership in the
original list; stated for the foldl with an arbitrary accumulator. -/
theorem mem_uniqueFirst_aux (l : List String) :
    ∀ (acc : List String) (x : String),
      x ∈ l.foldl (fun acc y => if y ∈ acc then acc else acc ++ [y]) acc ↔ x ∈ acc ∨ x ∈ l := by
  induction l with
  | nil => intro acc x; simp
  | cons y rest ih =>
    intro acc x
    rw [List.foldl_cons]
    by_cases hy : y ∈ acc
    · rw [if_pos hy, ih]
      constructor
      · rintro (h | h)
        · exact Or.inl h
        · exact Or.inr (List.mem_cons_of_mem y h)
      · rintro (h | h)
        · exact Or.inl h
        · rcases List.mem_cons.mp h with h | h
          · exact Or.inl (h ▸ hy)
          · exact Or.inr h
    · rw [if_neg hy, ih]
      simp only [List.mem_append, List.mem_singleton, List.mem_cons]
      tauto

/-- Membership transfers through uniqueFirst. -/
theorem mem_uniqueFirst (l : List String) (x : String) :
    x ∈ uniqueFirst l ↔ x ∈ l := by
  rw [uniqueFirst, mem_uniqueFirst_aux]
  simp

/-- Looking up a key in a list that tabulates a function over keys
returns the function value whenever the key occurs. -/
theorem lookup_tabulate {α : Type} (f : String → α) (pids : List String) (pid : String)
    (h : pid ∈ pids) :
    (pids.map (fun p => (p, f p))).lookup pid = some (f pid) := by
  induction pids with
  | nil => cases h
  | cons p rest ih =>
    rw [List.map_cons]
    by_cases hp : p = pid
    · subst hp
      simp [List.lookup]
    · have hmem : pid ∈ rest := by
        rcases List.mem_cons.mp h with h1 | h1
        · exact absurd h1.symm hp
        · exact h1
      have hbeq : (pid == p) = false := beq_eq_false_iff_ne.mpr (Ne.symm hp)
      simp [List.lookup, hbeq, ih hmem]

/-- In a list sorted by the nonstrict order, the first element found by a
predicate search is a lower bound of every element satisfying it. -/
theorem find?_le_of_sorted {pr : ℚ → Bool} :
    ∀ {l : List ℚ}, l.Pairwise (· ≤ ·) → ∀ {a : ℚ}, l.find? pr = some a →
      ∀ b ∈ l, pr b = true → a ≤ b := by
  intro l
  induction l with
  | nil => intro _ a ha; cases ha
  | cons x rest ih =>
    intro hs a ha b hb hpb
    rcases List.pairwise_cons.mp hs with ⟨hhead, htail⟩
    by_cases hx : pr x = true
    · rw [List.find?_cons_of_pos _ hx] at ha
      injection ha with ha
      subst ha
      rcases List.mem_cons.mp hb with h1 | h1
      · exact le_of_eq h1.symm
      · exact hhead b h1
    · rw [List.find?_cons_of_neg _ (by simpa using hx)] at ha
      rcases List.mem_cons.mp hb with h1 | h1
      · exact absurd (h1 ▸ hpb) hx
      · exact ih htail ha b h1 hpb

/-- Expanding a sum of centered cross products into raw moment sums. -/
theorem sum_centered_prod (pts : List (ℚ × ℚ)) (a b : ℚ) :
    (pts.map (fun p => (p.1 - a) * (p.2 - b))).sum
      = sumXY pts - a * sumY pts - b * sumX pts + (pts.length : ℚ) * (a * b) := by
  induction pts with
  | nil => simp [sumXY, sumX, sumY]
  | cons q rest ih =>
    simp only [sumXY, sumX, sumY, List.map_cons, List.sum_cons, List.length_cons] at ih ⊢
    rw [ih]
    push_cast
    ring

/-- Expanding a sum of centered squares of the first coordinate. -/
theorem sum_centered_sq (pts : List (ℚ × ℚ)) (a : ℚ) :
    (pts.map (fun p => (p.1 - a) * (p.1 - a))).sum
      = sumX2 pts - 2 * a * sumX pts + (pts.length : ℚ) * (a * a) := by
  induction pts with
  | nil => simp [sumX2, sumX]
  | cons q rest ih =>
    simp only [sumX2, sumX, List.map_cons, List.sum_cons, List.length_cons] at ih ⊢
    rw [ih]
    push_cast
    ring

/-- Closed form of the sample covariance in raw moment sums. -/
theorem covXY_eq (pts : List (ℚ × ℚ)) (h : (pts.length : ℚ) ≠ 0) :
    covXY pts = ((pts.length : ℚ) * sumXY pts - sumX pts * sumY pts) / ((pts.length : ℚ) ^ 2) := by
  rw [covXY, meanX, meanY, sum_centered_prod]
  field_simp
  ring

/-- Closed form of the sample variance in raw moment sums. -/
theorem varX_eq (pts : List (ℚ × ℚ)) (h : (pts.length : ℚ) ≠ 0) :
    varX pts = ((pts.length : ℚ) * sumX2 pts - sumX pts * sumX pts) / ((pts.length : ℚ) ^ 2) := by
  rw [varX, meanX, sum_centered_sq]
  field_simp
  ring

/-- The fitted least-squares slope equals the claimed closed form
cov / var on any nonempty point list (with the convention that both
sides are 0 when the regressor is constant, since division by zero is 0
in the rationals). -/
theorem fitSlope_eq_cov_div_var (pts : List (ℚ × ℚ)) (h : (pts.length : ℚ) ≠ 0) :
    fitSlope pts = covXY pts / varX pts := by
  rw [covXY_eq pts h, varX_eq pts h, fitSlope]
  rcases eq_or_ne ((pts.length : ℚ) * sumX2 pts - sumX pts * sumX pts) 0 with hB | hB
  · rw [hB]
    simp
  · have h2 : ((pts.length : ℚ) ^ 2) ≠ 0 := pow_ne_zero 2 h
    field_simp

/-- Expansion of a line's residual sum of squares into raw moment sums. -/
theorem sse_expand (pts : List (ℚ × ℚ)) (a b : ℚ) :
    (pts.map (fun p => (p.2 - (a + b * p.1)) ^ 2)).sum
      = sumY2 pts - 2 * a * sumY pts - 2 * b * sumXY pts + 2 * a * b * sumX pts
          + (pts.length : ℚ) * a ^ 2 + b ^ 2 * sumX2 pts := by
  induction pts with
  | nil => simp [sumY2, sumY, sumXY, sumX, sumX2]
  | cons q rest ih =>
    simp only [sumY2, sumY, sumXY, sumX, sumX2, List.map_cons, List.sum_cons,
      List.length_cons] at ih ⊢
    rw [ih]
    push_cast
    ring

/-- A list of nonnegative rationals with sum 0 is pointwise 0. -/
theorem list_sum_nonneg_all_zero :
    ∀ {l : List ℚ}, (∀ x ∈ l, 0 ≤ x) → l.sum = 0 → ∀ x ∈ l, x = 0 := by
  intro l
  induction l with
  | nil => intro _ _ x hx; cases hx
  | cons a t ih =>
    intro hpos hsum x hx
    have hta : 0 ≤ t.sum := List.sum_nonneg (fun y hy => hpos y (List.mem_cons_of_mem a hy))
    have ha : 0 ≤ a := hpos a (List.mem_cons_self a t)
    rw [List.sum_cons] at hsum
    rcases List.mem_cons.mp hx with rfl | hxt
    · linarith
    · exact ih (fun y hy => hpos y (List.mem_cons_of_mem a hy)) (by linarith) x hxt

/-- The determinant of the normal equations is nonnegative: it is the
list size times a sum of squares. -/
theorem normal_det_nonneg (pts : List (ℚ × ℚ)) (h : (pts.length : ℚ) ≠ 0) :
    0 ≤ (pts.length : ℚ) * sumX2 pts - sumX pts * sumX pts := by
  have hid : (pts.length : ℚ) * sumX2 pts - sumX pts * sumX pts
      = (pts.length : ℚ)
          * (pts.map (fun p => (p.1 - meanX pts) * (p.1 - meanX pts))).sum := by
    rw [sum_centered_sq, meanX]
    field_simp
    ring
  rw [hid]
  refine mul_nonneg (Nat.cast_nonneg _) (List.sum_nonneg ?_)
  intro q hq
  rcases List.mem_map.mp hq with ⟨p, _, rfl⟩
  exact mul_self_nonneg _

/-- The embedded fit really is the least-squares fit: on a nonempty
point list, no line a + b x has a smaller residual sum of squares than
the one through fitIntercept and fitSlope.  This justifies embedding
LinearRegression().fit by the closed-form solution. -/
theorem fit_minimizes_sse (pts : List (ℚ × ℚ)) (h : (pts.length : ℚ) ≠ 0) (a b : ℚ) :
    ssRes pts ≤ (pts.map (fun p => (p.2 - (a + b * p.1)) ^ 2)).sum := by
  have hres : ssRes pts
      = (pts.map (fun p => (p.2 - (fitIntercept pts + fitSlope pts * p.1)) ^ 2)).sum := rfl
  have hn0 : (0 : ℚ) ≤ (pts.length : ℚ) := Nat.cast_nonneg _
  rcases eq_or_ne ((pts.length : ℚ) * sumX2 pts - sumX pts * sumX pts) 0 with hD | hD
  · -- degenerate regressor: every abscissa equals the mean
    have hzero : ∀ q ∈ pts.map (fun p => (p.1 - meanX pts) * (p.1 - meanX pts)), q = 0 := by
      have hsum0 : (pts.map (fun p => (p.1 - meanX pts) * (p.1 - meanX pts))).sum = 0 := by
        have hid : (pts.length : ℚ) * sumX2 pts - sumX pts * sumX pts
            = (pts.length : ℚ)
                * (pts.map (fun p => (p.1 - meanX pts) * (p.1 - meanX pts))).sum := by
          rw [sum_centered_sq, meanX]
          field_simp
          ring
        rw [hid] at hD
        exact (mul_eq_zero.mp hD).resolve_left h
      refine list_sum_nonneg_all_zero ?_ hsum0
      intro q hq
      rcases List.mem_map.mp hq with ⟨p, _, rfl⟩
      exact mul_self_nonneg _
    have hconst : ∀ p ∈ pts, p.1 = meanX pts := by
      intro p hp
      have := hzero _ (List.mem_map_of_mem _ hp)
      have := mul_self_eq_zero.mp this
      linarith
    have hN : (pts.length : ℚ) * sumXY pts - sumX pts * sumY pts = 0 := by
      have hc : (pts.map (fun p => (p.1 - meanX pts) * (p.2 - meanY pts))).sum = 0 := by
        refine List.sum_eq_zero ?_
        intro q hq
        rcases List.mem_map.mp hq with ⟨p, hp, rfl⟩
        rw [hconst p hp]
        ring
      have hid2 : (pts.length : ℚ) * sumXY pts - sumX pts * sumY pts
          = (pts.length : ℚ)
              * (pts.map (fun p => (p.1 - meanX pts) * (p.2 - meanY pts))).sum := by
        rw [sum_centered_prod, meanX, meanY]
        field_simp
        ring
      rw [hid2, hc, mul_zero]
    have hb : fitSlope pts = 0 := by
      rw [fitSlope, hN, zero_div]
    have hSxy : sumXY pts = sumX pts * sumY pts / (pts.length : ℚ) := by
      field_simp
      linarith
    have hSx2 : sumX2 pts = sumX pts * sumX pts / (pts.length : ℚ) := by
      field_simp
      linarith
    rw [hres, hb, sse_expand, sse_expand, fitIntercept, hb, hSxy, hSx2]
    rw [← sub_nonneg]
    have hkey : sumY2 pts - 2 * a * sumY pts
            - 2 * b * (sumX pts * sumY pts / (pts.length : ℚ))
            + 2 * a * b * sumX pts + (pts.length : ℚ) * a ^ 2
            + b ^ 2 * (sumX pts * sumX pts / (pts.length : ℚ))
          - (sumY2 pts - 2 * ((sumY pts - 0 * sumX pts) / (pts.length : ℚ)) * sumY pts
            - 2 * 0 * (sumX pts * sumY pts / (pts.length : ℚ))
            + 2 * ((sumY pts - 0 * sumX pts) / (pts.length : ℚ)) * 0 * sumX pts
            + (pts.length : ℚ) * ((sumY pts - 0 * sumX pts) / (pts.length : ℚ)) ^ 2
            + 0 ^ 2 * (sumX pts * sumX pts / (pts.length : ℚ)))
        = ((pts.length : ℚ) * a + b * sumX pts - sumY pts) ^ 2 / (pts.length : ℚ) := by
      field_simp
      ring
    rw [hkey]
    exact div_nonneg (sq_nonneg _) hn0
  · -- regular case: complete the square around the fitted line
    have hkey : (pts.map (fun p => (p.2 - (a + b * p.1)) ^ 2)).sum
        = (pts.map (fun p => (p.2 - (fitIntercept pts + fitSlope pts * p.1)) ^ 2)).sum
          + (((pts.length : ℚ) * sumX2 pts - sumX pts * sumX pts) / (pts.length : ℚ))
              * (b - fitSlope pts) ^ 2
          + ((pts.length : ℚ) * a + b * sumX pts - sumY pts) ^ 2 / (pts.length : ℚ) := by
      rw [sse_expand, sse_expand, fitIntercept, fitSlope]
      field_simp
      ring
    rw [hres, hkey]
    have h1 : 0 ≤ (((pts.length : ℚ) * sumX2 pts - sumX pts * sumX pts) / (pts.length : ℚ))
        * (b - fitSlope pts) ^ 2 :=
      mul_nonneg (div_nonneg (normal_det_nonneg pts h) hn0) (sq_nonneg _)
    have h2 : 0 ≤ ((pts.length : ℚ) * a + b * sumX pts - sumY pts) ^ 2 / (pts.length : ℚ) :=
      div_nonneg (sq_nonneg _) hn0
    linarith

/-- The optimizer's loop body is stepG at the margin test and the
objective target. -/
theorem candidateStep_eq_stepG (objective : String)
    (min_margin current_price base_cost base_volume elasticity : ℚ) :
    candidateStep objective min_margin current_price base_cost base_volume elasticity
      = stepG (fun c => decide (min_margin ≤ marginAt current_price base_cost c))
          (fun c => targetAt objective current_price base_cost base_volume elasticity c) := by
  funext acc c
  by_cases h : marginAt current_price base_cost c < min_margin
  · simp [candidateStep, stepG, h, not_le.mpr h]
  · simp [candidateStep, stepG, h, not_lt.mp h]

/-- Complete behaviour of the candidate loop folded over a sorted
candidate list: a none outcome keeps the accumulator and means no
candidate survives; a some outcome is a surviving candidate attaining the
maximum target, the first such in evaluation order (hence a lower bound
of every tied survivor in the sorted list). -/
theorem stepG_fold_spec (surv : ℚ → Bool) (f : ℚ → ℚ) :
    ∀ (l : List ℚ) (acc : Option ℚ × ℚ),
      l.Pairwise (· ≤ ·) →
      (∀ bv, acc.1 = some bv → surv acc.2 = true ∧ f acc.2 = bv ∧ ∀ c ∈ l, acc.2 ≤ c) →
      ((l.foldl (stepG surv f) acc).1 = none →
          l.foldl (stepG surv f) acc = acc ∧ ∀ c ∈ l, surv c = false) ∧
      (∀ M, (l.foldl (stepG surv f) acc).1 = some M →
          surv (l.foldl (stepG surv f) acc).2 = true ∧
          f (l.foldl (stepG surv f) acc).2 = M ∧
          (∀ c ∈ l, surv c = true → f c ≤ M) ∧
          (∀ bv, acc.1 = some bv → bv ≤ M) ∧
          (∀ c ∈ l, surv c = true → f c = M → (l.foldl (stepG surv f) acc).2 ≤ c) ∧
          (l.foldl (stepG surv f) acc = acc ∨ (l.foldl (stepG surv f) acc).2 ∈ l) ∧
          ((l.foldl (stepG surv f) acc).2 = acc.2 ∨ ∀ bv, acc.1 = some bv → bv < M)) := by
  intro l
  induction l with
  | nil =>
    intro acc _ hacc
    refine ⟨fun _ => ⟨rfl, by simp⟩, ?_⟩
    intro M hM
    rw [List.foldl_nil] at hM
    rcases hacc M hM with ⟨i1, i2, _⟩
    refine ⟨i1, i2, by simp, ?_, by simp, Or.inl rfl, Or.inl rfl⟩
    intro bv hbv
    rw [hbv] at hM
    injection hM with hM
    exact le_of_eq hM
  | cons c rest ih =>
    intro acc hpair hacc
    rcases List.pairwise_cons.mp hpair with ⟨hhead, htail⟩
    rw [List.foldl_cons]
    by_cases hs : surv c = true
    · rcases h1 : acc.1 with _ | bv
      · -- first surviving candidate replaces the -inf accumulator
        have hstep : stepG surv f acc c = (some (f c), c) := by
          simp [stepG, hs, h1]
        rw [hstep]
        have hinv : ∀ bv, ((some (f c), c) : Option ℚ × ℚ).1 = some bv →
            surv ((some (f c), c) : Option ℚ × ℚ).2 = true ∧
            f ((some (f c), c) : Option ℚ × ℚ).2 = bv ∧
            ∀ x ∈ rest, ((some (f c), c) : Option ℚ × ℚ).2 ≤ x := by
          intro bv hbv
          simp only at hbv
          injection hbv with hbv
          exact hbv ▸ ⟨hs, rfl, hhead⟩
        rcases ih (some (f c), c) htail hinv with ⟨IH1, IH2⟩
        constructor
        · intro hnone
          rcases IH1 hnone with ⟨heq, _⟩
          rw [heq] at hnone
          simp at hnone
        · intro M hM
          rcases IH2 M hM with ⟨g1, g2, g3, g4, g5, g6, g7⟩
          refine ⟨g1, g2, ?_, ?_, ?_, ?_, ?_⟩
          · intro x hx hsx
            rcases List.mem_cons.mp hx with h | h
            · exact h ▸ g4 (f c) rfl
            · exact g3 x h hsx
          · intro bv hbv
            cases hbv
          · intro x hx hsx hfx
            rcases List.mem_cons.mp hx with h | h
            · subst h
              rcases g7 with g7a | g7b
              · rw [g7a]
              · have hflt : f x < M := g7b (f x) rfl
                rw [hfx] at hflt
                exact absurd hflt (lt_irrefl M)
            · exact g5 x h hsx hfx
          · rcases g6 with g6a | g6b
            · rw [g6a]
              exact Or.inr (List.mem_cons_self c rest)
            · exact Or.inr (List.mem_cons_of_mem c g6b)
          · refine Or.inr ?_
            intro bv hbv
            cases hbv
      · by_cases hlt : bv < f c
        · -- strictly better candidate replaces the incumbent
          have hstep : stepG surv f acc c = (some (f c), c) := by
            simp [stepG, hs, h1, hlt]
          rw [hstep]
          have hinv : ∀ bv', ((some (f c), c) : Option ℚ × ℚ).1 = some bv' →
              surv ((some (f c), c) : Option ℚ × ℚ).2 = true ∧
              f ((some (f c), c) : Option ℚ × ℚ).2 = bv' ∧
              ∀ x ∈ rest, ((some (f c), c) : Option ℚ × ℚ).2 ≤ x := by
            intro bv' hbv'
            simp only at hbv'
            injection hbv' with hbv'
            exact hbv' ▸ ⟨hs, rfl, hhead⟩
          rcases ih (some (f c), c) htail hinv with ⟨IH1, IH2⟩
          constructor
          · intro hnone
            rcases IH1 hnone with ⟨heq, _⟩
            rw [heq] at hnone
            simp at hnone
          · intro M hM
            rcases IH2 M hM with ⟨g1, g2, g3, g4, g5, g6, g7⟩
            have hfcM : f c ≤ M := g4 (f c) rfl
            refine ⟨g1, g2, ?_, ?_, ?_, ?_, ?_⟩
            · intro x hx hsx
              rcases List.mem_cons.mp hx with h | h
              · exact h ▸ hfcM
              · exact g3 x h hsx
            · intro bv' hbv'
              injection hbv' with hbv'
              exact hbv' ▸ le_trans (le_of_lt hlt) hfcM
            · intro x hx hsx hfx
              rcases List.mem_cons.mp hx with h | h
              · subst h
                rcases g7 with g7a | g7b
                · rw [g7a]
                · have hflt : f x < M := g7b (f x) rfl
                  rw [hfx] at hflt
                  exact absurd hflt (lt_irrefl M)
              · exact g5 x h hsx hfx
            · rcases g6 with g6a | g6b
              · rw [g6a]
                exact Or.inr (List.mem_cons_self c rest)
              · exact Or.inr (List.mem_cons_of_mem c g6b)
            · refine Or.inr ?_
              intro bv' hbv'
              injection hbv' with hbv'
              exact hbv' ▸ lt_of_lt_of_le hlt hfcM
        · -- tie or worse: incumbent is kept
          have hstep : stepG surv f acc c = acc := by
            simp [stepG, hs, h1, hlt]
          rw [hstep]
          have hinv : ∀ bv', acc.1 = some bv' →
              surv acc.2 = true ∧ f acc.2 = bv' ∧ ∀ x ∈ rest, acc.2 ≤ x := by
            intro bv' hbv'
            rcases hacc bv' hbv' with ⟨i1, i2, i3⟩
            exact ⟨i1, i2, fun x hx => i3 x (List.mem_cons_of_mem c hx)⟩
          rcases ih acc htail hinv with ⟨IH1, IH2⟩
          constructor
          · intro hnone
            rcases IH1 hnone with ⟨heq, _⟩
            rw [heq, h1] at hnone
            cases hnone
          · intro M hM
            rcases IH2 M hM with ⟨g1, g2, g3, g4, g5, g6, g7⟩
            have hbvM : bv ≤ M := g4 bv h1
            have hfcbv : f c ≤ bv := not_lt.mp hlt
            refine ⟨g1, g2, ?_, ?_, ?_, ?_, ?_⟩
            · intro x hx hsx
              rcases List.mem_cons.mp hx with h | h
              · exact h ▸ le_trans hfcbv hbvM
              · exact g3 x h hsx
            · intro bv' hbv'
              injection hbv' with hbv'
              exact hbv' ▸ hbvM
            · intro x hx hsx hfx
              rcases List.mem_cons.mp hx with h | h
              · subst h
                have hbvM' : bv = M := le_antisymm hbvM (hfx ▸ hfcbv)
                rcases g7 with g7a | g7b
                · rw [g7a]
                  rcases hacc bv h1 with ⟨_, _, i3⟩
                  exact i3 x (List.mem_cons_self x rest)
                · have := g7b bv h1
                  rw [hbvM'] at this
                  exact absurd this (lt_irrefl M)
              · exact g5 x h hsx hfx
            · rcases g6 with g6a | g6b
              · exact Or.inl g6a
              · exact Or.inr (List.mem_cons_of_mem c g6b)
            · rcases g7 with g7a | g7b
              · exact Or.inl g7a
              · refine Or.inr ?_
                intro bv' hbv'
                injection hbv' with hbv'
                exact hbv' ▸ g7b bv h1
    · -- non-surviving candidate is skipped
      have hstep : stepG surv f acc c = acc := by
        simp [stepG, hs]
      rw [hstep]
      have hinv : ∀ bv', acc.1 = some bv' →
          surv acc.2 = true ∧ f acc.2 = bv' ∧ ∀ x ∈ rest, acc.2 ≤ x := by
        intro bv' hbv'
        rcases hacc bv' hbv' with ⟨i1, i2, i3⟩
        exact ⟨i1, i2, fun x hx => i3 x (List.mem_cons_of_mem c hx)⟩
      rcases ih acc htail hinv with ⟨IH1, IH2⟩
      constructor
      · intro hnone
        rcases IH1 hnone with ⟨heq, hall⟩
        refine ⟨heq, ?_⟩
        intro x hx
        rcases List.mem_cons.mp hx with h | h
        · exact h ▸ Bool.eq_false_iff.mpr hs
        · exact hall x h
      · intro M hM
        rcases IH2 M hM with ⟨g1, g2, g3, g4, g5, g6, g7⟩
        refine ⟨g1, g2, ?_, g4, ?_, ?_, g7⟩
        · intro x hx hsx
          rcases List.mem_cons.mp hx with h | h
          · exact absurd (h ▸ hsx) hs
          · exact g3 x h hsx
        · intro x hx hsx hfx
          rcases List.mem_cons.mp hx with h | h
          · exact absurd (h ▸ hsx) hs
          · exact g5 x h hsx hfx
        · rcases g6 with g6a | g6b
          · exact Or.inl g6a
          · exact Or.inr (List.mem_cons_of_mem c g6b)

/-- The candidate grid written out: five evenly spaced values from
-max_change to max_change in steps of max_change / 2. -/
theorem test_points_eq (max_change : ℚ) :
    test_points max_change
      = [-max_change, -(max_change / 2), 0, max_change / 2, max_change] := by
  rw [test_points, show List.range 5 = [0, 1, 2, 3, 4] from rfl]
  simp only [List.map_cons, List.map_nil, List.cons.injEq, and_true]
  refine ⟨by push_cast; ring, by push_cast; ring, by push_cast; ring,
    by push_cast; ring, by push_cast; ring⟩

/-- For a nonnegative bound the candidate grid is sorted ascending. -/
theorem test_points_sorted (max_change : ℚ) (h : 0 ≤ max_change) :
    (test_points max_change).Pairwise (· ≤ ·) := by
  rw [test_points_eq]
  refine List.pairwise_cons.mpr ⟨?_, List.pairwise_cons.mpr ⟨?_,
    List.pairwise_cons.mpr ⟨?_, List.pairwise_cons.mpr ⟨?_, List.pairwise_singleton _ _⟩⟩⟩⟩ <;>
    intro b hb <;> simp only [List.mem_cons, List.mem_singleton, List.not_mem_nil] at hb <;>
    rcases hb with rfl | rfl | rfl | rfl | h0 <;> first | linarith | cases h0

/-- With an unrecognized objective string the dispatch of lines 184-190
leaves the target at its initialization 0 for every candidate. -/
theorem targetAt_unknown (objective : String) (h1 : objective ≠ "profit")
    (h2 : objective ≠ "revenue") (h3 : objective ≠ "volume")
    (current_price base_cost base_volume elasticity change : ℚ) :
    targetAt objective current_price base_cost base_volume elasticity change = 0 := by
  simp [targetAt, targetOf, h1, h2, h3]

/-- Behaviour of the per-product recommendation for a nonnegative bound:
the recommended change survives the margin test or is the 0.0 fallback;
every surviving candidate's target is at most the recommendation's; and
among surviving candidates tied at the maximal target the recommendation
is the least. -/
theorem bestChange_spec (objective : String)
    (min_margin max_change current_price base_cost base_volume elasticity : ℚ)
    (hmc : 0 ≤ max_change) :
    (min_margin ≤ marginAt current_price base_cost
        (bestChange objective min_margin max_change current_price base_cost base_volume elasticity) ∨
      bestChange objective min_margin max_change current_price base_cost base_volume elasticity = 0) ∧
    (∀ c ∈ test_points max_change, min_margin ≤ marginAt current_price base_cost c →
      targetAt objective current_price base_cost base_volume elasticity c ≤
        targetAt objective current_price base_cost base_volume elasticity
          (bestChange objective min_margin max_change current_price base_cost base_volume elasticity)) ∧
    (∀ c ∈ test_points max_change, min_margin ≤ marginAt current_price base_cost c →
      targetAt objective current_price base_cost base_volume elasticity c =
        targetAt objective current_price base_cost base_volume elasticity
          (bestChange objective min_margin max_change current_price base_cost base_volume elasticity) →
      bestChange objective min_margin max_change current_price base_cost base_volume elasticity ≤ c) := by
  have hbc : bestChange objective min_margin max_change current_price base_cost base_volume elasticity
      = ((test_points max_change).foldl
          (stepG (fun c => decide (min_margin ≤ marginAt current_price base_cost c))
            (fun c => targetAt objective current_price base_cost base_volume elasticity c))
          (none, 0)).2 := by
    rw [bestChange, candidateStep_eq_stepG]
  have hfold := stepG_fold_spec
    (fun c => decide (min_margin ≤ marginAt current_price base_cost c))
    (fun c => targetAt objective current_price base_cost base_volume elasticity c)
    (test_points max_change) (none, 0) (test_points_sorted max_change hmc)
    (by intro bv hbv; cases hbv)
  rcases hfold with ⟨H1, H2⟩
  rcases hr : ((test_points max_change).foldl
      (stepG (fun c => decide (min_margin ≤ marginAt current_price base_cost c))
        (fun c => targetAt objective current_price base_cost base_volume elasticity c))
      (none, 0)).1 with _ | M
  · rcases H1 hr with ⟨heq, hnone⟩
    refine ⟨Or.inr (by rw [hbc, heq]), ?_, ?_⟩
    · intro c hc hsurv
      have hfalse := hnone c hc
      simp only [decide_eq_false_iff_not] at hfalse
      exact absurd hsurv hfalse
    · intro c hc hsurv _
      have hfalse := hnone c hc
      simp only [decide_eq_false_iff_not] at hfalse
      exact absurd hsurv hfalse
  · rcases H2 M hr with ⟨g1, g2, g3, _, g5, _, _⟩
    have hM : M = targetAt objective current_price base_cost base_volume elasticity
        (bestChange objective min_margin max_change current_price base_cost base_volume elasticity) := by
      rw [hbc]
      exact g2.symm
    refine ⟨Or.inl ?_, ?_, ?_⟩
    · rw [hbc]
      exact of_decide_eq_true g1
    · intro c hc hsurv
      rw [← hM]
      exact g3 c hc (decide_eq_true hsurv)
    · intro c hc hsurv heq
      rw [hbc]
      exact g5 c hc (decide_eq_true hsurv) (heq.trans hM.symm)

/-- Behaviour of the per-product recommendation under an unrecognized
objective: every candidate's target is 0, so the recommendation is the
first candidate surviving the margin test in evaluation order (the least
surviving candidate for a nonnegative bound), or 0.0 when none does. -/
theorem bestChange_unknown_spec (objective : String)
    (min_margin max_change current_price base_cost base_volume elasticity : ℚ)
    (hmc : 0 ≤ max_change) (h1 : objective ≠ "profit")
    (h2 : objective ≠ "revenue") (h3 : objective ≠ "volume") :
    bestChange objective min_margin max_change current_price base_cost base_volume elasticity
      = ((test_points max_change).find?
          (fun c => decide (min_margin ≤ marginAt current_price base_cost c))).getD 0 ∧
    (∀ c ∈ test_points max_change, min_margin ≤ marginAt current_price base_cost c →
      bestChange objective min_margin max_change current_price base_cost base_volume elasticity ≤ c) := by
  have hbc : bestChange objective min_margin max_change current_price base_cost base_volume elasticity
      = ((test_points max_change).foldl
          (stepG (fun c => decide (min_margin ≤ marginAt current_price base_cost c))
            (fun c => targetAt objective current_price base_cost base_volume elasticity c))
          (none, 0)).2 := by
    rw [bestChange, candidateStep_eq_stepG]
  have hfold := stepG_fold_spec
    (fun c => decide (min_margin ≤ marginAt current_price base_cost c))
    (fun c => targetAt objective current_price base_cost base_volume elasticity c)
    (test_points max_change) (none, 0) (test_points_sorted max_change hmc)
    (by intro bv hbv; cases hbv)
  rcases hfold with ⟨H1, H2⟩
  rcases hr : ((test_points max_change).foldl
      (stepG (fun c => decide (min_margin ≤ marginAt current_price base_cost c))
        (fun c => targetAt objective current_price base_cost base_volume elasticity c))
      (none, 0)).1 with _ | M
  · rcases H1 hr with ⟨heq, hnone⟩
    have hfind : (test_points max_change).find?
        (fun c => decide (min_margin ≤ marginAt current_price base_cost c)) = none := by
      refine List.find?_eq_none.mpr ?_
      intro x hx
      have hf := hnone x hx
      simp only [decide_eq_false_iff_not] at hf
      rw [decide_eq_true_eq]
      exact hf
    refine ⟨by rw [hbc, heq, hfind]; rfl, ?_⟩
    intro c hc hsurv
    have hfalse := hnone c hc
    simp only [decide_eq_false_iff_not] at hfalse
    exact absurd hsurv hfalse
  · rcases H2 M hr with ⟨g1, g2, g3, _, g5, g6, _⟩
    have hM0 : M = 0 := by
      rw [← g2]
      exact targetAt_unknown objective h1 h2 h3 current_price base_cost base_volume elasticity _
    have hmemr : ((test_points max_change).foldl
        (stepG (fun c => decide (min_margin ≤ marginAt current_price base_cost c))
          (fun c => targetAt objective current_price base_cost base_volume elasticity c))
        (none, 0)).2 ∈ test_points max_change := by
      rcases g6 with g6a | g6b
      · rw [g6a] at hr
        cases hr
      · exact g6b
    have hsome : ((test_points max_change).find?
        (fun c => decide (min_margin ≤ marginAt current_price base_cost c))).isSome := by
      rw [List.find?_isSome]
      exact ⟨_, hmemr, g1⟩
    rcases Option.isSome_iff_exists.mp hsome with ⟨c0, hc0⟩
    have hc0mem : c0 ∈ test_points max_change := List.mem_of_find?_eq_some hc0
    have hc0surv := List.find?_some hc0
    have hle1 : ((test_points max_change).foldl
        (stepG (fun c => decide (min_margin ≤ marginAt current_price base_cost c))
          (fun c => targetAt objective current_price base_cost base_volume elasticity c))
        (none, 0)).2 ≤ c0 := by
      refine g5 c0 hc0mem hc0surv ?_
      exact (targetAt_unknown objective h1 h2 h3 current_price base_cost base_volume
        elasticity c0).trans hM0.symm
    have hle2 := find?_le_of_sorted (test_points_sorted max_change hmc) hc0 _ hmemr g1
    constructor
    · rw [hbc, hc0, Option.getD_some]
      exact le_antisymm hle1 hle2
    · intro c hc hsurv
      rw [hbc]
      refine g5 c hc (decide_eq_true hsurv) ?_
      exact (targetAt_unknown objective h1 h2 h3 current_price base_cost base_volume
        elasticity c).trans hM0.symm

/-- Claim C1, actual behaviour at the failing input: invoked while no
catalog is loaded, optimize_pricing evaluates iterrows() on None and so
fails with AttributeError — not with the ValueError state error that the
spec requires and that simulate_scenario raises — for every objective,
min_margin and max_change, and whatever else the state holds. -/
theorem C1_optimize_no_catalog_attribute_error
    (historical_data : Option (List Obs))
    (elasticities : List (String × ElasticityResult))
    (models : List (String × FitModel))
    (objective : String) (min_margin max_change : ℚ) :
    optimize_pricing ⟨none, historical_data, elasticities, models⟩
        objective min_margin max_change
      = Except.error (Err.attributeError "NoneType object has no attribute iterrows") :=
  rfl

/-- Claim C4: for every max_change the optimizer's candidate grid is
exactly the five evenly spaced values -max_change, -max_change/2, 0,
max_change/2, max_change; it has length 5, contains both endpoints,
consecutive candidates differ by max_change/2, and for a nonnegative
bound every candidate lies in the closed interval
[-max_change, max_change]. -/
theorem C4_test_points_five_evenly_spaced (max_change : ℚ) :
    test_points max_change
        = [-max_change, -(max_change / 2), 0, max_change / 2, max_change] ∧
      (test_points max_change).length = 5 ∧
      -max_change ∈ test_points max_change ∧
      max_change ∈ test_points max_change ∧
      (∀ i : ℕ, i + 1 < 5 →
        (test_points max_change).getD (i + 1) 0 - (test_points max_change).getD i 0
          = max_change / 2) ∧
      (0 ≤ max_change → ∀ x ∈ test_points max_change,
        -max_change ≤ x ∧ x ≤ max_change) := by
  have he := test_points_eq max_change
  refine ⟨he, by rw [he]; rfl, by rw [he]; exact List.mem_cons_self _ _,
    by rw [he]; simp, ?_, ?_⟩
  · intro i hi
    have hi4 : i < 4 := by omega
    interval_cases i <;> rw [he] <;> simp [List.getD] <;> ring
  · intro hmc x hx
    rw [he] at hx
    simp only [List.mem_cons, List.not_mem_nil, or_false] at hx
    rcases hx with rfl | rfl | rfl | rfl | rfl <;> constructor <;> linarith

/-- Witness for C4 at max_change = 1: the inner hypotheses are
satisfiable and yield the spacing and interval facts there. -/
theorem C4_witness :
    test_points 1 = [-1, -(1 / 2), 0, 1 / 2, 1] ∧
    (test_points 1).getD 1 0 - (test_points 1).getD 0 0 = 1 / 2 ∧
    -1 ≤ (-1 : ℚ) ∧ (-1 : ℚ) ≤ 1 := by
  rcases C4_test_points_five_evenly_spaced 1 with ⟨h1, _, hm, _, h5, h6⟩
  have hx := h6 (by decide) (-1) hm
  exact ⟨h1, h5 0 (by decide), hx.1, hx.2⟩

/-- Claim C10: on success neither simulate_scenario nor optimize_pricing
changes any component of the simulator state — catalog, observation
table, elasticity mapping and model cache are those of the input state
(only calculate_elasticity writes state in the embedding, mirroring the
source, where only it and the two load methods assign to self). -/
theorem C10_simulate_optimize_frame (s : PricingSimulator) :
    (∀ price_changes out, simulate_scenario s price_changes = Except.ok out →
        out.2.product_data = s.product_data ∧
        out.2.historical_data = s.historical_data ∧
        out.2.elasticities = s.elasticities ∧
        out.2.models = s.models) ∧
    (∀ objective min_margin max_change out,
        optimize_pricing s objective min_margin max_change = Except.ok out →
        out.2.product_data = s.product_data ∧
        out.2.historical_data = s.historical_data ∧
        out.2.elasticities = s.elasticities ∧
        out.2.models = s.models) := by
  constructor
  · intro pc out h
    rcases hpd : s.product_data with _ | products
    · simp only [simulate_scenario, hpd] at h
      exact Except.noConfusion h
    · simp only [simulate_scenario, hpd] at h
      injection h with h
      rw [← h]
      exact ⟨hpd, rfl, rfl, rfl⟩
  · intro objective min_margin max_change out h
    rcases hpd : s.product_data with _ | products
    · simp only [optimize_pricing, hpd] at h
      exact Except.noConfusion h
    · simp only [optimize_pricing, hpd] at h
      injection h with h
      rw [← h]
      exact ⟨hpd, rfl, rfl, rfl⟩

/-- Witness for C10 on the concrete loaded state: both calls succeed and
the returned state components equal the input's. -/
theorem C10_witness :
    simulate_scenario wState []
        = Except.ok (wProducts.map (simRecordOf wState []), wState) ∧
    optimize_pricing wState "profit" 0 1
        = Except.ok (wProducts.map (fun row =>
            (row.product_id,
              bestChange "profit" 0 1 row.current_price row.base_cost
                (baseVolume wState row.product_id)
                (getElasticity wState.elasticities row.product_id))), wState) ∧
    wState.product_data = wState.product_data ∧
    wState.elasticities = wState.elasticities := by
  have e1 : simulate_scenario wState []
      = Except.ok (wProducts.map (simRecordOf wState []), wState) := rfl
  have e2 : optimize_pricing wState "profit" 0 1
      = Except.ok (wProducts.map (fun row =>
          (row.product_id,
            bestChange "profit" 0 1 row.current_price row.base_cost
              (baseVolume wState row.product_id)
              (getElasticity wState.elasticities row.product_id))), wState) := rfl
  have h1 := (C10_simulate_optimize_frame wState).1 []
    (wProducts.map (simRecordOf wState []), wState) e1
  have h2 := (C10_simulate_optimize_frame wState).2 "profit" 0 1
    (wProducts.map (fun row =>
      (row.product_id,
        bestChange "profit" 0 1 row.current_price row.base_cost
          (baseVolume wState row.product_id)
          (getElasticity wState.elasticities row.product_id))), wState) e2
  exact ⟨e1, e2, h1.1, h2.2.2.1⟩

/-- Claim C9: every catalog product absent from the price_changes mapping
gets a simulation record with new_price equal to old_price, a 0.0 applied
change and a zero projected volume change. -/
theorem C9_absent_product_unchanged
    (s : PricingSimulator) (products : List Product)
    (price_changes : List (String × ℚ)) (row : Product)
    (hcat : s.product_data = some products) (hrow : row ∈ products)
    (habs : price_changes.lookup row.product_id = none) :
    ∃ recs s', simulate_scenario s price_changes = Except.ok (recs, s') ∧
      simRecordOf s price_changes row ∈ recs ∧
      (simRecordOf s price_changes row).new_price
        = (simRecordOf s price_changes row).old_price ∧
      (simRecordOf s price_changes row).price_change_pct = 0 ∧
      (simRecordOf s price_changes row).volume_change_pct = 0 := by
  refine ⟨products.map (simRecordOf s price_changes), s,
    by simp only [simulate_scenario, hcat], List.mem_map_of_mem _ hrow, ?_, ?_, ?_⟩
  · simp [simRecordOf, habs]
  · simp [simRecordOf, habs]
  · simp [simRecordOf, habs]

/-- Witness for C9 on the concrete state with the empty mapping. -/
theorem C9_witness :
    wState.product_data = some wProducts ∧
    (⟨"P1", "Premium Coffee Beans", "Coffee", 10, 18⟩ : Product) ∈ wProducts ∧
    (([] : List (String × ℚ)).lookup "P1" = none) ∧
    ∃ recs s', simulate_scenario wState [] = Except.ok (recs, s') ∧
      simRecordOf wState [] ⟨"P1", "Premium Coffee Beans", "Coffee", 10, 18⟩ ∈ recs ∧
      (simRecordOf wState [] ⟨"P1", "Premium Coffee Beans", "Coffee", 10, 18⟩).new_price
        = (simRecordOf wState [] ⟨"P1", "Premium Coffee Beans", "Coffee", 10, 18⟩).old_price ∧
      (simRecordOf wState [] ⟨"P1", "Premium Coffee Beans", "Coffee", 10, 18⟩).price_change_pct = 0 ∧
      (simRecordOf wState [] ⟨"P1", "Premium Coffee Beans", "Coffee", 10, 18⟩).volume_change_pct = 0 :=
  ⟨rfl, by decide, rfl,
    C9_absent_product_unchanged wState wProducts []
      ⟨"P1", "Premium Coffee Beans", "Coffee", 10, 18⟩ rfl (by decide) rfl⟩

/-- Claim C7: in every simulation record the revenue and profit
percentage deltas are 0 when the corresponding old value is exactly 0,
and equal (new - old) / old otherwise; the quotient is only taken behind
the zero guard. -/
theorem C7_percentage_delta_guards
    (s : PricingSimulator) (products : List Product)
    (price_changes : List (String × ℚ)) (row : Product)
    (hcat : s.product_data = some products) (hrow : row ∈ products) :
    ∃ recs s', simulate_scenario s price_changes = Except.ok (recs, s') ∧
      simRecordOf s price_changes row ∈ recs ∧
      ((simRecordOf s price_changes row).old_revenue = 0 →
        (simRecordOf s price_changes row).revenue_change_pct = 0) ∧
      ((simRecordOf s price_changes row).old_revenue ≠ 0 →
        (simRecordOf s price_changes row).revenue_change_pct
          = ((simRecordOf s price_changes row).new_revenue
              - (simRecordOf s price_changes row).old_revenue)
            / (simRecordOf s price_changes row).old_revenue) ∧
      ((simRecordOf s price_changes row).old_profit = 0 →
        (simRecordOf s price_changes row).profit_change_pct = 0) ∧
      ((simRecordOf s price_changes row).old_profit ≠ 0 →
        (simRecordOf s price_changes row).profit_change_pct
          = ((simRecordOf s price_changes row).new_profit
              - (simRecordOf s price_changes row).old_profit)
            / (simRecordOf s price_changes row).old_profit) := by
  refine ⟨products.map (simRecordOf s price_changes), s,
    by simp only [simulate_scenario, hcat], List.mem_map_of_mem _ hrow, ?_, ?_, ?_, ?_⟩
  · intro h
    simp only [simRecordOf] at h ⊢
    rw [if_pos h]
  · intro h
    simp only [simRecordOf] at h ⊢
    rw [if_neg h]
  · intro h
    simp only [simRecordOf] at h ⊢
    rw [if_pos h]
  · intro h
    simp only [simRecordOf] at h ⊢
    rw [if_neg h]

/-- Witness for C7 on the concrete state: P2 has base_cost equal to
current_price, so its old profit is 0 and the guard fires. -/
theorem C7_witness :
    wState.product_data = some wProducts ∧
    (⟨"P2", "Coffee Filters", "Accessories", 5, 5⟩ : Product) ∈ wProducts ∧
    (simRecordOf wState [] ⟨"P2", "Coffee Filters", "Accessories", 5, 5⟩).profit_change_pct = 0 := by
  rcases C7_percentage_delta_guards wState wProducts []
      ⟨"P2", "Coffee Filters", "Accessories", 5, 5⟩ rfl (by decide)
    with ⟨recs, s', _, _, _, _, hzero, _⟩
  refine ⟨rfl, by decide, hzero ?_⟩
  simp [simRecordOf, baseVolume]

/-- Claim C8: the base volume used by both simulation and optimization is
the arithmetic mean of all historical volume observations of the product
— filtered only by product id, with no validity filtering — when any
exist, and the constant 1000 when the product has no observations or no
observation table is loaded; simulation exposes it as old_volume and
optimization feeds it into every per-product recommendation. -/
theorem C8_base_volume_mean_of_all_rows (s : PricingSimulator) (pid : String) :
    (s.historical_data = none → baseVolume s pid = 1000) ∧
    (∀ hist, s.historical_data = some hist →
      ((hist.filter (fun o => o.product_id == pid)).isEmpty = true →
        baseVolume s pid = 1000) ∧
      ((hist.filter (fun o => o.product_id == pid)).isEmpty = false →
        baseVolume s pid
          = ((hist.filter (fun o => o.product_id == pid)).map (fun o => o.volume)).sum
              / ((hist.filter (fun o => o.product_id == pid)).length : ℚ))) ∧
    (∀ products price_changes row, s.product_data = some products → row ∈ products →
      ∃ recs s', simulate_scenario s price_changes = Except.ok (recs, s') ∧
        simRecordOf s price_changes row ∈ recs ∧
        (simRecordOf s price_changes row).old_volume = baseVolume s row.product_id) ∧
    (∀ objective min_margin max_change products, s.product_data = some products →
      optimize_pricing s objective min_margin max_change
        = Except.ok (products.map (fun row =>
            (row.product_id,
              bestChange objective min_margin max_change row.current_price row.base_cost
                (baseVolume s row.product_id)
                (getElasticity s.elasticities row.product_id))), s)) := by
  refine ⟨?_, ?_, ?_, ?_⟩
  · intro h
    simp [baseVolume, h]
  · intro hist hh
    constructor
    · intro hemp
      simp [baseVolume, hh, hemp]
    · intro hemp
      simp [baseVolume, hh, hemp]
  · intro products price_changes row hcat hrow
    exact ⟨products.map (simRecordOf s price_changes), s,
      by simp only [simulate_scenario, hcat], List.mem_map_of_mem _ hrow, rfl⟩
  · intro objective min_margin max_change products hcat
    simp only [optimize_pricing, hcat]

/-- Witness for C8 on the concrete state at product P2: the observation
list for P2 is nonempty, and the base volume is the mean 5 of the volumes
3 and 7 — the invalid (price 0) row is included. -/
theorem C8_witness :
    wState.historical_data = some wHist ∧
    (wHist.filter (fun o => o.product_id == "P2")).isEmpty = false ∧
    baseVolume wState "P2"
      = ((wHist.filter (fun o => o.product_id == "P2")).map (fun o => o.volume)).sum
          / ((wHist.filter (fun o => o.product_id == "P2")).length : ℚ) ∧
    baseVolume wState "P2" = 5 := by
  have h := ((C8_base_volume_mean_of_all_rows wState "P2").2.1 wHist rfl).2 (by decide)
  refine ⟨rfl, by decide, h, ?_⟩
  have hf : wHist.filter (fun o => o.product_id == "P2")
      = [⟨"d6", "P2", 1, 3⟩, ⟨"d7", "P2", 0, 7⟩] := by decide
  rw [h, hf]
  norm_num [List.map_cons, List.map_nil, List.sum_cons, List.sum_nil]

/-- Claim C2: a product with fewer than five valid (price > 0 and
volume > 0) observations gets the default record with elasticity -1.0,
r_squared 0.0 and is_modeled false. -/
theorem C2_insufficient_data_default (log : ℚ → ℚ) (s : PricingSimulator)
    (hist : List Obs) (pid : String)
    (hh : s.historical_data = some hist)
    (hmem : pid ∈ hist.map (fun o => o.product_id))
    (hfew : (validRows hist pid).length < 5) :
    ∃ results s', calculate_elasticity log s = Except.ok (results, s') ∧
      results.lookup pid = some ⟨-1, 0, false⟩ := by
  refine ⟨(uniqueFirst (hist.map (fun o => o.product_id))).map
      (fun p => (p, productResult log hist p)), ?_, ?_, ?_⟩
  · exact { s with
      elasticities := (uniqueFirst (hist.map (fun o => o.product_id))).map
        (fun p => (p, productResult log hist p)),
      models := (uniqueFirst (hist.map (fun o => o.product_id))).foldl (fun m p =>
        if (validRows hist p).length < 5 then m
        else dictInsert m p
          ⟨fitSlope (logPoints log hist p), fitIntercept (logPoints log hist p)⟩) s.models }
  · simp only [calculate_elasticity, hh]
  · rw [lookup_tabulate (productResult log hist) _ pid ((mem_uniqueFirst _ _).mpr hmem)]
    rw [productResult, if_pos hfew]

/-- Witness for C2 on the concrete state, log instantiated to the
identity: P2 has exactly one valid observation. -/
theorem C2_witness :
    wState.historical_data = some wHist ∧
    "P2" ∈ wHist.map (fun o => o.product_id) ∧
    (validRows wHist "P2").length < 5 ∧
    ∃ results s', calculate_elasticity id wState = Except.ok (results, s') ∧
      results.lookup "P2" = some ⟨-1, 0, false⟩ :=
  ⟨rfl, by decide, by decide,
    C2_insufficient_data_default id wState wHist "P2" rfl (by decide) (by decide)⟩

/-- Claim C3: a product with at least five valid observations gets a
modeled record whose elasticity is the fitted least-squares slope, and
that slope equals the closed-form quotient of the sample covariance of
the log points by the sample variance of the log prices. -/
theorem C3_modeled_slope_cov_over_var (log : ℚ → ℚ) (s : PricingSimulator)
    (hist : List Obs) (pid : String)
    (hh : s.historical_data = some hist)
    (hmem : pid ∈ hist.map (fun o => o.product_id))
    (henough : 5 ≤ (validRows hist pid).length) :
    ∃ results s', calculate_elasticity log s = Except.ok (results, s') ∧
      results.lookup pid
        = some ⟨fitSlope (logPoints log hist pid), rSquared (logPoints log hist pid), true⟩ ∧
      fitSlope (logPoints log hist pid)
        = covXY (logPoints log hist pid) / varX (logPoints log hist pid) := by
  have hlen : ((logPoints log hist pid).length : ℚ) ≠ 0 := by
    rw [logPoints, List.length_map]
    exact Nat.cast_ne_zero.mpr (by omega)
  refine ⟨(uniqueFirst (hist.map (fun o => o.product_id))).map
      (fun p => (p, productResult log hist p)), ?_, ?_, ?_, fitSlope_eq_cov_div_var _ hlen⟩
  · exact { s with
      elasticities := (uniqueFirst (hist.map (fun o => o.product_id))).map
        (fun p => (p, productResult log hist p)),
      models := (uniqueFirst (hist.map (fun o => o.product_id))).foldl (fun m p =>
        if (validRows hist p).length < 5 then m
        else dictInsert m p
          ⟨fitSlope (logPoints log hist p), fitIntercept (logPoints log hist p)⟩) s.models }
  · simp only [calculate_elasticity, hh]
  · rw [lookup_tabulate (productResult log hist) _ pid ((mem_uniqueFirst _ _).mpr hmem)]
    rw [productResult, if_neg (not_lt.mpr henough)]

/-- Witness for C3 on the concrete state, log instantiated to the
identity: P1 has exactly five valid observations. -/
theorem C3_witness :
    wState.historical_data = some wHist ∧
    "P1" ∈ wHist.map (fun o => o.product_id) ∧
    5 ≤ (validRows wHist "P1").length ∧
    ∃ results s', calculate_elasticity id wState = Except.ok (results, s') ∧
      results.lookup "P1"
        = some ⟨fitSlope (logPoints id wHist "P1"), rSquared (logPoints id wHist "P1"), true⟩ ∧
      fitSlope (logPoints id wHist "P1")
        = covXY (logPoints id wHist "P1") / varX (logPoints id wHist "P1") :=
  ⟨rfl, by decide, by decide,
    C3_modeled_slope_cov_over_var id wState wHist "P1" rfl (by decide) (by decide)⟩

/-- Claim C5: for every catalog product (with a nonnegative change bound,
which is how max_change is specified) the recommended change either
satisfies the margin constraint at the product's current price or is the
0.0 initialized fallback; every margin-surviving candidate's target is at
most the recommendation's; and among surviving candidates tied at the
maximal target the recommendation is the smallest, because candidates are
scanned in ascending order and only a strictly greater target replaces
the incumbent. -/
theorem C5_optimize_margin_or_fallback_ties_smallest
    (s : PricingSimulator) (products : List Product) (objective : String)
    (min_margin max_change : ℚ) (row : Product)
    (hcat : s.product_data = some products) (hrow : row ∈ products)
    (hmc : 0 ≤ max_change) :
    ∃ recs s', optimize_pricing s objective min_margin max_change = Except.ok (recs, s') ∧
      (row.product_id,
        bestChange objective min_margin max_change row.current_price row.base_cost
          (baseVolume s row.product_id) (getElasticity s.elasticities row.product_id)) ∈ recs ∧
      (min_margin ≤ marginAt row.current_price row.base_cost
          (bestChange objective min_margin max_change row.current_price row.base_cost
            (baseVolume s row.product_id) (getElasticity s.elasticities row.product_id)) ∨
        bestChange objective min_margin max_change row.current_price row.base_cost
          (baseVolume s row.product_id) (getElasticity s.elasticities row.product_id) = 0) ∧
      (∀ c ∈ test_points max_change,
        min_margin ≤ marginAt row.current_price row.base_cost c →
        targetAt objective row.current_price row.base_cost
            (baseVolume s row.product_id) (getElasticity s.elasticities row.product_id) c ≤
          targetAt objective row.current_price row.base_cost
            (baseVolume s row.product_id) (getElasticity s.elasticities row.product_id)
            (bestChange objective min_margin max_change row.current_price row.base_cost
              (baseVolume s row.product_id) (getElasticity s.elasticities row.product_id))) ∧
      (∀ c ∈ test_points max_change,
        min_margin ≤ marginAt row.current_price row.base_cost c →
        targetAt objective row.current_price row.base_cost
            (baseVolume s row.product_id) (getElasticity s.elasticities row.product_id) c =
          targetAt objective row.current_price row.base_cost
            (baseVolume s row.product_id) (getElasticity s.elasticities row.product_id)
            (bestChange objective min_margin max_change row.current_price row.base_cost
              (baseVolume s row.product_id) (getElasticity s.elasticities row.product_id)) →
        bestChange objective min_margin max_change row.current_price row.base_cost
          (baseVolume s row.product_id) (getElasticity s.elasticities row.product_id) ≤ c) := by
  rcases bestChange_spec objective min_margin max_change row.current_price row.base_cost
    (baseVolume s row.product_id) (getElasticity s.elasticities row.product_id) hmc
    with ⟨h1, h2, h3⟩
  refine ⟨products.map (fun r =>
      (r.product_id,
        bestChange objective min_margin max_change r.current_price r.base_cost
          (baseVolume s r.product_id) (getElasticity s.elasticities r.product_id))), s,
    by simp only [optimize_pricing, hcat], ?_, h1, h2, h3⟩
  exact List.mem_map_of_mem _ hrow

/-- Witness for C5 on the concrete state with objective profit,
min_margin 0 and max_change 1. -/
theorem C5_witness :
    wState.product_data = some wProducts ∧
    (⟨"P1", "Premium Coffee Beans", "Coffee", 10, 18⟩ : Product) ∈ wProducts ∧
    (0 : ℚ) ≤ 1 ∧
    ∃ recs s', optimize_pricing wState "profit" 0 1 = Except.ok (recs, s') ∧
      ("P1", bestChange "profit" 0 1 18 10 (baseVolume wState "P1")
        (getElasticity wState.elasticities "P1")) ∈ recs ∧
      (0 ≤ marginAt 18 10 (bestChange "profit" 0 1 18 10 (baseVolume wState "P1")
          (getElasticity wState.elasticities "P1")) ∨
        bestChange "profit" 0 1 18 10 (baseVolume wState "P1")
          (getElasticity wState.elasticities "P1") = 0) := by
  rcases C5_optimize_margin_or_fallback_ties_smallest wState wProducts "profit" 0 1
      ⟨"P1", "Premium Coffee Beans", "Coffee", 10, 18⟩ rfl (by decide) (by decide)
    with ⟨recs, s', hrun, hmem, hmargin, _, _⟩
  exact ⟨rfl, by decide, by decide, recs, s', hrun, hmem, hmargin⟩

/-- Claim C6: under an objective string other than profit, revenue or
volume, every candidate's target value is the initialization 0, so the
per-product recommendation is the first — for a nonnegative bound the
smallest, most negative — candidate that satisfies the margin constraint,
and the 0.0 fallback when none does. -/
theorem C6_unknown_objective_first_survivor
    (s : PricingSimulator) (products : List Product) (objective : String)
    (min_margin max_change : ℚ) (row : Product)
    (hcat : s.product_data = some products) (hrow : row ∈ products)
    (hmc : 0 ≤ max_change)
    (h1 : objective ≠ "profit") (h2 : objective ≠ "revenue") (h3 : objective ≠ "volume") :
    ∃ recs s', optimize_pricing s objective min_margin max_change = Except.ok (recs, s') ∧
      (row.product_id,
        bestChange objective min_margin max_change row.current_price row.base_cost
          (baseVolume s row.product_id) (getElasticity s.elasticities row.product_id)) ∈ recs ∧
      (∀ c : ℚ, targetAt objective row.current_price row.base_cost
          (baseVolume s row.product_id) (getElasticity s.elasticities row.product_id) c = 0) ∧
      bestChange objective min_margin max_change row.current_price row.base_cost
          (baseVolume s row.product_id) (getElasticity s.elasticities row.product_id)
        = ((test_points max_change).find?
            (fun c => decide (min_margin ≤ marginAt row.current_price row.base_cost c))).getD 0 ∧
      (∀ c ∈ test_points max_change,
        min_margin ≤ marginAt row.current_price row.base_cost c →
        bestChange objective min_margin max_change row.current_price row.base_cost
          (baseVolume s row.product_id) (getElasticity s.elasticities row.product_id) ≤ c) := by
  rcases bestChange_unknown_spec objective min_margin max_change row.current_price row.base_cost
    (baseVolume s row.product_id) (getElasticity s.elasticities row.product_id) hmc h1 h2 h3
    with ⟨hfirst, hleast⟩
  refine ⟨products.map (fun r =>
      (r.product_id,
        bestChange objective min_margin max_change r.current_price r.base_cost
          (baseVolume s r.product_id) (getElasticity s.elasticities r.product_id))), s,
    by simp only [optimize_pricing, hcat], List.mem_map_of_mem _ hrow, ?_, hfirst, hleast⟩
  intro c
  exact targetAt_unknown objective h1 h2 h3 _ _ _ _ c

/-- Witness for C6 on the concrete state with the unrecognized objective
string "moat". -/
theorem C6_witness :
    wState.product_data = some wProducts ∧
    (⟨"P1", "Premium Coffee Beans", "Coffee", 10, 18⟩ : Product) ∈ wProducts ∧
    (0 : ℚ) ≤ 1 ∧ ("moat" : String) ≠ "profit" ∧
    ∃ recs s', optimize_pricing wState "moat" 0 1 = Except.ok (recs, s') ∧
      targetAt "moat" 18 10 (baseVolume wState "P1") (getElasticity wState.elasticities "P1") 0
        = 0 ∧
      bestChange "moat" 0 1 18 10 (baseVolume wState "P1") (getElasticity wState.elasticities "P1")
        = ((test_points 1).find? (fun c => decide ((0:ℚ) ≤ marginAt 18 10 c))).getD 0 := by
  rcases C6_unknown_objective_first_survivor wState wProducts "moat" 0 1
      ⟨"P1", "Premium Coffee Beans", "Coffee", 10, 18⟩ rfl (by decide) (by decide)
      (by decide) (by decide) (by decide)
    with ⟨recs, s', hrun, _, hzero, hfirst, _⟩
  exact ⟨rfl, by decide, by decide, by decide, recs, s', hrun, hzero 0, hfirst⟩
